import Mathlib

/-!
Verification development for the gcp-rss-notifier feed pipeline.

The repository has two Go cloud functions:
  * `src/src/list-channels/function.go` — the Channel Processor
    (`processChannel`, `removeOldItems`, `publishItem`): deduplicates the
    parsed feed entries against a Firestore record store and fans the new
    entries out onto a Pub/Sub topic.
  * `src/src/process-item/function.go` — the Item Processor
    (`processItem`, `notify`, `htmlToMarkdown`, `save`): converts one
    dispatched entry's HTML body to chat markup, POSTs it to the webhook
    and, on success, merges a ProcessedRecord into the store.

Go strings are embedded as `List Char` (`GoStr`), so Go's `len` is
`List.length`, slicing `s[:n]` is `List.take n`, and `+` is `++`.  The
external capabilities (feed parser, Pub/Sub publish results, the HTTP
transport, Firestore availability) are passed in as explicit oracles, and
every side effect is recorded in an explicit `Effect` trace.
-/

/-- A Go string, embedded as its sequence of characters. -/
abbrev GoStr := List Char

/-- The character sequence of a Lean string literal (used to write
concrete Go strings). -/
def gs (s : String) : GoStr := s.data

/-- Whitespace test used by `strings.TrimSpace`.  Go trims the Unicode
White_Space class; the ASCII subset suffices for every string this
development manipulates. -/
def isSpace (c : Char) : Bool :=
  c == ' ' || c == '\t' || c == '\n' || c == '\r'

/-- Go `strings.TrimSpace`: drop leading and trailing whitespace. -/
def trimSpace (s : GoStr) : GoStr :=
  ((s.dropWhile isSpace).reverse.dropWhile isSpace).reverse

/-- Go `strings.Replace(s, pat, repl, -1)` specialised to a one-character
pattern `pat` (the only patterns the source uses are `"\n"` and `"\""`).
Every occurrence of the character is replaced by `repl`. -/
def replaceAll (pat : Char) (repl : GoStr) : GoStr → GoStr
  | [] => []
  | c :: cs => (if c = pat then repl else [c]) ++ replaceAll pat repl cs

/-- An HTML anchor element, reduced to the three attributes the converter
rule of `process-item/function.go` reads.  `none` models an absent
attribute; `some v` a present attribute of value `v` (possibly empty). -/
structure Anchor where
  href : Option String
  title : Option String
  ariaLabel : Option String

/-- goquery's `Selection.AttrOr`: the attribute's value when the
attribute is present, otherwise the fallback. -/
def attrOr (attr : Option String) (fallback : GoStr) : GoStr :=
  match attr with
  | some v => gs v
  | none => fallback

/-- The markdown half of the library's `md.AdvancedResult` (the source
only ever fills the `Markdown` field). -/
structure AdvResult where
  markdown : GoStr := []
deriving DecidableEq

/-- Modelled from the spec: `md.EscapeMultiLine` of the external
html-to-markdown library (not part of this repository) escapes multi-line
inner text so it survives single-line chat markup.  The model trims the
content and escapes remaining newlines; the development only relies on it
mapping whitespace-only content to the empty string. -/
def escapeMultiLine (content : GoStr) : GoStr :=
  replaceAll '\n' (gs "\\\n") (trimSpace content)

/-- The quoted-title suffix of the custom anchor rule
(`process-item/function.go` lines 133-139): when a `title` attribute is
present, its newlines are normalised to spaces, its double quotes
escaped, and the result wrapped as a quoted suffix after the href. -/
def titleSuffix (a : Anchor) : GoStr :=
  match a.title with
  | some t =>
    gs " \"" ++ replaceAll '"' (gs "\\\"") (replaceAll '\n' (gs " ") (gs t)) ++ gs "\""
  | none => []

/-- The custom rule's resolution of empty inner content (`function.go`
line 144): `selec.AttrOr("title", selec.AttrOr("aria-label", ""))`. -/
def resolvedFallback (a : Anchor) : GoStr :=
  attrOr a.title (attrOr a.ariaLabel [])

/-- The custom `<a>` rule installed by `htmlToMarkdown`
(`process-item/function.go` lines 118-157).  Returns the library's
`(AdvancedResult, skip)` pair:
  * no `href`, or `href` trimming to `""` or `"#"` — the inner content is
    returned unchanged, no link syntax;
  * otherwise the content is multi-line-escaped; empty content falls
    back to the `title` then `aria-label` attribute; content still empty
    skips the rule (the anchor is suppressed); otherwise the rule emits
    `<href[ "title"]|content>`. -/
def anchorReplacement (a : Anchor) (content : GoStr) : AdvResult × Bool :=
  match a.href with
  | none => ({ markdown := content }, false)
  | some href =>
    if trimSpace (gs href) = [] ∨ trimSpace (gs href) = gs "#" then
      ({ markdown := content }, false)
    else
      let content1 := escapeMultiLine content
      let content2 :=
        if trimSpace content1 = [] then resolvedFallback a else content1
      if content2 = [] then
        ({ markdown := [] }, true)
      else
        ({ markdown := gs "<" ++ gs href ++ titleSuffix a ++ gs "|" ++ content2 ++ gs ">" }, false)

/-- A node of the parsed HTML body, as seen by the conversion walker:
plain text, or an anchor together with its already-converted inner
content (resolving inner content is the external library's recursion). -/
inductive Node where
  | text (s : GoStr)
  | anchor (a : Anchor) (content : GoStr)

/-- Output contributed by one node.  Text passes through; an anchor is
rendered by the custom rule.  When the custom rule skips, the library
falls through to its default `a` rule, which on the same inputs (empty
resolved content) also skips, so a fully-skipped anchor contributes
nothing. -/
def nodeToMarkdown (n : Node) : GoStr :=
  match n with
  | .text s => s
  | .anchor a content =>
    let (res, skip) := anchorReplacement a content
    if skip then [] else res.markdown

/-- The walker over the node sequence: concatenation of the per-node
outputs. -/
def walkNodes : List Node → GoStr
  | [] => []
  | n :: rest => nodeToMarkdown n ++ walkNodes rest

/-- The external converter's `ConvertString` on an already-parsed body:
walk the nodes and trim surrounding whitespace of the final document. -/
def renderNodes (nodes : List Node) : GoStr :=
  trimSpace (walkNodes nodes)

/-- `htmlToMarkdown` (`process-item/function.go` lines 111-161): parse
the HTML body (external capability, passed as the oracle `parse`; a
parse failure is the conversion error path) and render the node
sequence. -/
def htmlToMarkdown (parse : GoStr → Except GoStr (List Node)) (html : GoStr) :
    Except GoStr GoStr :=
  match parse html with
  | .error e => .error e
  | .ok nodes => .ok (renderNodes nodes)

/-- One observable side effect of an invocation: the dedup batch read,
a Firestore merge-write, a Pub/Sub publish, or a webhook POST (the POST
body is the JSON object whose single `text` field is recorded here). -/
inductive Effect where
  | storeGet (ids : List GoStr)
  | storeSet (id : GoStr) (record : List (GoStr × GoStr))
  | publish (data : List (GoStr × GoStr))
  | httpPost (url : GoStr) (text : GoStr)
deriving DecidableEq

/-- The record store: each identifier maps to the stored document's
fields, or `none` when no ProcessedRecord exists. -/
def StoreState := GoStr → Option (List (GoStr × GoStr))

/-- Applying one effect to the store: only a merge-write changes it.
(`save` always writes every field of the record, so the `MergeAll`
merge coincides with overwriting the document.) -/
def applyEffect (σ : StoreState) : Effect → StoreState
  | .storeSet id record => fun k => if k = id then some record else σ k
  | _ => σ

/-- Applying a whole effect trace, oldest effect first. -/
def applyEffects (σ : StoreState) : List Effect → StoreState
  | [] => σ
  | e :: rest => applyEffects (applyEffect σ e) rest

namespace ListChannels

/-- The fields of a parsed feed entry (`gofeed.Item`) that the Channel
Processor reads: `GUID`, `Title`, `Link`, `Content`, `Updated`. -/
structure GItem where
  guid : GoStr
  title : GoStr
  link : GoStr
  content : GoStr
  updated : GoStr
deriving DecidableEq

/-- A channel configuration record: feed URL and notify webhook URL. -/
structure ChannelConfig where
  feedURL : GoStr
  notifyURL : GoStr
deriving DecidableEq

/-- Errors of the Channel Processor, mirroring the `fmt.Errorf` sites of
`list-channels/function.go`: event/config decode failure, feed
fetch/parse failure, Firestore failure in `removeOldItems`, and the
aggregate `"k of n messages did not publish successfuly"` error built at
line 218 (represented by its two numbers). -/
inductive ChannelError where
  | parseError (e : GoStr)
  | feedError (e : GoStr)
  | storeError (e : GoStr)
  | aggregate (failed : Nat) (total : Nat)
deriving DecidableEq

/-- The JSON object `publishItem` marshals for one new entry
(`function.go` lines 181-190): the producer-side `FeedItem` struct has
exactly the fields `notify`, `id`, `updated`, `link`, `title`,
`content` — and no `feed` field. -/
def encodeFeedItem (notifyURL : GoStr) (it : GItem) : List (GoStr × GoStr) :=
  [(gs "notify", notifyURL), (gs "id", it.guid), (gs "updated", it.updated),
   (gs "link", it.link), (gs "title", it.title), (gs "content", it.content)]

/-- Insertion into the Go map `itemMap` (`itemMap[item.GUID] = item`):
replace the value when the key is present, otherwise add the binding. -/
def mapInsert (m : List (GoStr × GItem)) (k : GoStr) (v : GItem) :
    List (GoStr × GItem) :=
  if m.any (fun p => p.1 = k) then
    m.map (fun p => if p.1 = k then (k, v) else p)
  else
    m ++ [(k, v)]

/-- The loop of `removeOldItems` that fills `itemMap` from the entry
sequence (`function.go` lines 234-237).  Go map iteration order is
unspecified; the model keeps insertion order, which is irrelevant to the
set of dispatched entries. -/
def buildMap : List GItem → List (GoStr × GItem) → List (GoStr × GItem)
  | [], m => m
  | it :: rest, m => buildMap rest (mapInsert m it.guid it)

/-- The pure content of `removeOldItems` (`function.go` lines 224-259)
over a reachable store: build `itemMap`, delete every key whose document
snapshot has data (`store` reports it present), and collect the
remaining values. -/
def removeOldItemsPure (store : GoStr → Bool) (items : List GItem) : List GItem :=
  (((buildMap items []).filter (fun p => !(store p.1))).map Prod.snd)

/-- `removeOldItems` with its effect trace: one batch `GetAll` over the
document refs of all entry GUIDs.  `avail = false` models Firestore
unavailability, in which case `GetAll` fails and the function returns
the store error (lines 239-242). -/
def removeOldItems (avail : Bool) (store : GoStr → Bool) (items : List GItem) :
    Except ChannelError (List GItem) × List Effect :=
  if avail then
    (.ok (removeOldItemsPure store items), [.storeGet (items.map (·.guid))])
  else
    (.error (.storeError (gs "failed getting items from firestore")),
     [.storeGet (items.map (·.guid))])

/-- The fan-out loop of `publishItem` (`function.go` lines 181-215):
every item is marshalled and published (the per-item `Get` result is
awaited in its own goroutine, so one failure never stops the loop), and
the number of failed publishes is tallied by the atomic counter.
`pubFail i` is the transport oracle: whether the `i`-th publish's
`Get` returns an error.  Returns the effect trace and the final counter
value. -/
def publishLoop (pubFail : Nat → Bool) (notifyURL : GoStr) :
    Nat → List GItem → List Effect × Nat
  | _, [] => ([], 0)
  | i, it :: rest =>
    let (fx, k) := publishLoop pubFail notifyURL (i + 1) rest
    (.publish (encodeFeedItem notifyURL it) :: fx, (if pubFail i then 1 else 0) + k)

/-- `publishItem` (`function.go` lines 170-222): run the fan-out, wait
on the join barrier, and return the aggregate
`"totalErrors of len(items) messages did not publish successfuly"`
error when the counter is positive, success otherwise. -/
def publishItem (pubFail : Nat → Bool) (notifyURL : GoStr) (items : List GItem) :
    Except ChannelError Unit × List Effect :=
  let (fx, k) := publishLoop pubFail notifyURL 0 items
  (if k > 0 then .error (.aggregate k items.length) else .ok (), fx)

/-- `processChannel` (`function.go` lines 143-168): decode the channel
config from the event (abstracted as `cfgResult`), fetch and parse the
feed (abstracted as `feedResult`), deduplicate via `removeOldItems`,
then fan out via `publishItem`.  Decode, parse and dedup errors are
returned; the value returned by `publishItem` is DISCARDED (line 165
calls `publishItem(ctx, channelConfig.NotifyURL, items)` without
examining its error) and the function returns success. -/
def processChannel (avail : Bool) (store : GoStr → Bool) (pubFail : Nat → Bool)
    (cfgResult : Except GoStr ChannelConfig)
    (feedResult : Except GoStr (List GItem)) :
    Except ChannelError Unit × List Effect :=
  match cfgResult with
  | .error e => (.error (.parseError e), [])
  | .ok cfg =>
    match feedResult with
    | .error e => (.error (.feedError e), [])
    | .ok feedItems =>
      match removeOldItems avail store feedItems with
      | (.error e, fx) => (.error e, fx)
      | (.ok newItems, fx) =>
        let pub := publishItem pubFail cfg.notifyURL newItems
        (.ok (), fx ++ pub.2)

end ListChannels

namespace ProcessItem

/-- The consumer-side `FeedItem` struct (`process-item/function.go`
lines 37-45): unlike the producer's struct it also has the `feed`
display-name field. -/
structure FeedItem where
  notifyURL : GoStr
  feed : GoStr
  id : GoStr
  updated : GoStr
  link : GoStr
  title : GoStr
  content : GoStr
deriving DecidableEq

/-- One field of Go's `json.Unmarshal` into a string field: the value
bound to the key, or the zero value `""` when the key is absent. -/
def jsonField (kvs : List (GoStr × GoStr)) (key : GoStr) : GoStr :=
  (kvs.lookup key).getD []

/-- `json.Unmarshal` of a dispatched message into the consumer-side
`FeedItem` (`function.go` lines 59-63). -/
def decodeFeedItem (kvs : List (GoStr × GoStr)) : FeedItem :=
  { notifyURL := jsonField kvs (gs "notify")
    feed := jsonField kvs (gs "feed")
    id := jsonField kvs (gs "id")
    updated := jsonField kvs (gs "updated")
    link := jsonField kvs (gs "link")
    title := jsonField kvs (gs "title")
    content := jsonField kvs (gs "content") }

/-- The header prepended at `function.go` line 84:
`fmt.Sprintf("%s <%s|%s>\n\n%s", item.Feed, item.Link, item.Title, text)`. -/
def assembleText (item : FeedItem) (body : GoStr) : GoStr :=
  item.feed ++ gs " <" ++ item.link ++ gs "|" ++ item.title ++ gs ">\n\n" ++ body

/-- The length bound at lines 86-89: texts longer than 4000 characters
are cut to their first 4000 characters. -/
def trimText (text : GoStr) : GoStr :=
  if text.length > 4000 then text.take 4000 else text

/-- Outcome of `http.Post`: a transport error, or an HTTP response with
status code, status line and body. -/
inductive PostResult where
  | transportError (e : GoStr)
  | response (statusCode : Int) (status : GoStr) (body : GoStr)

/-- `notify` (`function.go` lines 77-109): convert the body, prepend the
header, bound the length, POST `{"text": ...}` to the notify URL
(`post` is the HTTP transport oracle), and fail on a transport error or
any status other than 200. -/
def notify (parse : GoStr → Except GoStr (List Node))
    (post : GoStr → GoStr → PostResult) (item : FeedItem) :
    Except GoStr Unit × List Effect :=
  match htmlToMarkdown parse item.content with
  | .error e => (.error (gs "failed converting to markdown: " ++ e), [])
  | .ok body =>
    let text := trimText (assembleText item body)
    let fx := [Effect.httpPost item.notifyURL text]
    match post item.notifyURL text with
    | .transportError e => (.error (gs "error making http request: " ++ e), fx)
    | .response code status respBody =>
      if code = 200 then (.ok (), fx)
      else (.error (gs "response status: " ++ status ++ gs ", " ++ respBody), fx)

/-- The document `save` merges for a processed entry (`function.go`
lines 170-176). -/
def recordOf (item : FeedItem) : List (GoStr × GoStr) :=
  [(gs "id", item.id), (gs "lastUpdate", item.updated), (gs "title", item.title),
   (gs "content", item.content), (gs "link", item.link)]

/-- `save` (`function.go` lines 163-183): merge-write the
ProcessedRecord under the entry's identifier.  `setResult` is the
Firestore oracle for the write's outcome. -/
def save (setResult : Except GoStr Unit) (item : FeedItem) :
    Except GoStr Unit × List Effect :=
  match setResult with
  | .error e => (.error (gs "failed writing to firestore: " ++ e),
                 [.storeSet item.id (recordOf item)])
  | .ok _ => (.ok (), [.storeSet item.id (recordOf item)])

/-- `processItem` (`function.go` lines 53-75): notify first; only when
notification succeeded, persist the record.  (The cloud-event and JSON
decode steps at lines 54-63 are the external message boundary and are
abstracted: the model starts from the decoded `FeedItem`.) -/
def processItem (parse : GoStr → Except GoStr (List Node))
    (post : GoStr → GoStr → PostResult) (setResult : Except GoStr Unit)
    (item : FeedItem) : Except GoStr Unit × List Effect :=
  match notify parse post item with
  | (.error e, fx) => (.error (gs "failed sending notification: " ++ e), fx)
  | (.ok _, fx) =>
    match save setResult item with
    | (.error e, fx2) => (.error (gs "failed updating record: " ++ e), fx ++ fx2)
    | (.ok _, fx2) => (.ok (), fx ++ fx2)

end ProcessItem

namespace ProcessItem

/-- The text `notify` hands to `http.Post` for an item, when conversion
succeeds: the assembled header-plus-body, length-bounded.  `none` when
the conversion fails (no POST happens). -/
def sentText (parse : GoStr → Except GoStr (List Node)) (item : FeedItem) :
    Option GoStr :=
  match htmlToMarkdown parse item.content with
  | .error _ => none
  | .ok body => some (trimText (assembleText item body))

/-- The header line followed by the blank line: the assembled message of
an item whose converted body is empty. -/
def headerLine (item : FeedItem) : GoStr :=
  assembleText item []

end ProcessItem

/-! Concrete inputs used by witnesses and counterexamples. -/

/-- A sample feed entry with identifier `A`. -/
def itemA : ListChannels.GItem :=
  ⟨gs "A", gs "titleA", gs "linkA", gs "bodyA", gs "2024-01-01"⟩

/-- A sample feed entry with identifier `B`. -/
def itemB : ListChannels.GItem :=
  ⟨gs "B", gs "titleB", gs "linkB", gs "bodyB", gs "2024-01-02"⟩

/-- A sample feed entry with identifier `C`. -/
def itemC : ListChannels.GItem :=
  ⟨gs "C", gs "titleC", gs "linkC", gs "bodyC", gs "2024-01-03"⟩

/-- A store holding a ProcessedRecord for identifier `A` only. -/
def storeOnlyA : GoStr → Bool := fun k => k == gs "A"

/-- A store holding no ProcessedRecord at all. -/
def storeNone : GoStr → Bool := fun _ => false

/-- A Pub/Sub transport on which every publish fails. -/
def pubFailAll : Nat → Bool := fun _ => true

/-- A sample channel configuration. -/
def cfg0 : ListChannels.ChannelConfig := ⟨gs "https://feed", gs "https://notify"⟩

/-- A parser oracle under which every body parses to no nodes (in
particular the empty body, which the real parser maps to an empty
document). -/
def parseEmpty : GoStr → Except GoStr (List Node) := fun _ => .ok []

/-- An HTTP transport that always answers 404. -/
def post404 : GoStr → GoStr → ProcessItem.PostResult :=
  fun _ _ => .response 404 (gs "404 Not Found") (gs "not found")

/-- An HTTP transport that always answers 200. -/
def post200 : GoStr → GoStr → ProcessItem.PostResult :=
  fun _ _ => .response 200 (gs "200 OK") []

/-- A Firestore write oracle that succeeds. -/
def setOk : Except GoStr Unit := .ok ()

/-- A sample dispatched item with empty content body. -/
def item0 : ProcessItem.FeedItem :=
  ⟨gs "https://notify", gs "MyFeed", gs "A", gs "2024-01-01", gs "https://l", gs "T", []⟩

/-- A 5000-character text. -/
def bigText : GoStr := List.replicate 5000 'a'

/-- A dispatched item with empty content body whose header alone exceeds
the 4000-character bound (5000-character title, all other header parts
empty). -/
def itemBig : ProcessItem.FeedItem :=
  ⟨[], [], gs "A", [], [], bigText, []⟩

/-- An anchor whose `href` attribute is present but empty. -/
def anchorEmptyHref : Anchor := ⟨some "", none, none⟩

/-- An anchor with a real href and no `title`/`aria-label`. -/
def anchorNoText : Anchor := ⟨some "https://x", none, none⟩

/-- Decidable equality for `Except` results (used to evaluate the models
on concrete inputs). -/
instance exceptDecEq {ε α : Type} [DecidableEq ε] [DecidableEq α] :
    DecidableEq (Except ε α)
  | .ok a, .ok b =>
    if h : a = b then .isTrue (by rw [h])
    else .isFalse (by intro hc; cases hc; exact h rfl)
  | .ok _, .error _ => .isFalse (by intro hc; cases hc)
  | .error _, .ok _ => .isFalse (by intro hc; cases hc)
  | .error e, .error f =>
    if h : e = f then .isTrue (by rw [h])
    else .isFalse (by intro hc; cases hc; exact h rfl)

/-! Helper lemmas. -/

lemma walkNodes_append (l1 l2 : List Node) :
    walkNodes (l1 ++ l2) = walkNodes l1 ++ walkNodes l2 := by
  induction l1 with
  | nil => rfl
  | cons n rest ih => simp [walkNodes, ih]

lemma publishLoop_effects (pubFail : Nat → Bool) (url : GoStr) :
    ∀ (i : Nat) (items : List ListChannels.GItem),
      (ListChannels.publishLoop pubFail url i items).1 =
        items.map (fun it => Effect.publish (ListChannels.encodeFeedItem url it)) := by
  intro i items
  induction items generalizing i with
  | nil => rfl
  | cons it rest ih =>
    rcases hp : ListChannels.publishLoop pubFail url (i + 1) rest with ⟨fx, k⟩
    have hfst := ih (i + 1)
    rw [hp] at hfst
    simp only [ListChannels.publishLoop, hp, List.map_cons]
    simpa using hfst

lemma publishItem_effects (pubFail : Nat → Bool) (url : GoStr)
    (items : List ListChannels.GItem) :
    (ListChannels.publishItem pubFail url items).2 =
      items.map (fun it => Effect.publish (ListChannels.encodeFeedItem url it)) := by
  rcases hp : ListChannels.publishLoop pubFail url 0 items with ⟨fx, k⟩
  have hfst := publishLoop_effects pubFail url 0 items
  rw [hp] at hfst
  simp only [ListChannels.publishItem, hp]
  exact hfst

lemma applyEffect_of_not_set (σ : StoreState) (e : Effect)
    (h : ∀ id r, e ≠ Effect.storeSet id r) : applyEffect σ e = σ := by
  cases e with
  | storeSet id r => exact absurd rfl (h id r)
  | storeGet ids => rfl
  | publish d => rfl
  | httpPost u t => rfl

lemma applyEffects_of_no_set (fx : List Effect) :
    ∀ σ : StoreState, (∀ e ∈ fx, ∀ id r, e ≠ Effect.storeSet id r) →
      applyEffects σ fx = σ := by
  induction fx with
  | nil => intro σ _; rfl
  | cons e rest ih =>
    intro σ h
    have he : applyEffect σ e = σ :=
      applyEffect_of_not_set σ e (h e (List.mem_cons_self e rest))
    simp only [applyEffects, he]
    exact ih σ (fun e' he' => h e' (List.mem_cons_of_mem e he'))

lemma mapInsert_of_not_mem (m : List (GoStr × ListChannels.GItem)) (k : GoStr)
    (v : ListChannels.GItem) (h : ∀ p ∈ m, p.1 ≠ k) :
    ListChannels.mapInsert m k v = m ++ [(k, v)] := by
  have hany : (m.any fun p => p.1 = k) = false := by
    simp only [List.any_eq_false]
    intro p hp
    simpa using h p hp
  simp [ListChannels.mapInsert, hany]

lemma buildMap_of_nodup (items : List ListChannels.GItem) :
    ∀ m : List (GoStr × ListChannels.GItem),
      (items.map (·.guid)).Nodup →
      (∀ it ∈ items, ∀ p ∈ m, p.1 ≠ it.guid) →
      ListChannels.buildMap items m = m ++ items.map (fun it => (it.guid, it)) := by
  induction items with
  | nil => intro m _ _; simp [ListChannels.buildMap]
  | cons it rest ih =>
    intro m hnod hm
    have hins : ListChannels.mapInsert m it.guid it = m ++ [(it.guid, it)] :=
      mapInsert_of_not_mem m it.guid it
        (fun p hp => hm it (List.mem_cons_self it rest) p hp)
    rw [List.map_cons] at hnod
    have hnod' : (rest.map (·.guid)).Nodup := hnod.of_cons
    have hhead : it.guid ∉ rest.map (·.guid) := (List.nodup_cons.mp hnod).1
    have hm' : ∀ it' ∈ rest, ∀ p ∈ m ++ [(it.guid, it)], p.1 ≠ it'.guid := by
      intro it' hit' p hp
      rcases List.mem_append.mp hp with hpm | hpk
      · exact hm it' (List.mem_cons_of_mem it hit') p hpm
      · have : p = (it.guid, it) := by simpa using hpk
        subst this
        intro hcon
        exact hhead (by
          simp only [List.mem_map]
          exact ⟨it', hit', hcon.symm⟩)
    calc ListChannels.buildMap (it :: rest) m
        = ListChannels.buildMap rest (m ++ [(it.guid, it)]) := by
          simp [ListChannels.buildMap, hins]
      _ = (m ++ [(it.guid, it)]) ++ rest.map (fun it => (it.guid, it)) :=
          ih (m ++ [(it.guid, it)]) hnod' hm'
      _ = m ++ (it :: rest).map (fun it => (it.guid, it)) := by
          simp

/-! Claim theorems. -/

/-- C1: the fan-out aggregates per-dispatch failures into a "k of n"
error, but the Channel Processor invocation does not return it: at a
concrete input with one new entry whose dispatch fails, `publishItem`
returns the aggregate error (1 of 1), the entry's publish still occurs,
and `processChannel` — which discards `publishItem`'s return value at
`list-channels/function.go` line 165 — returns success instead of the
aggregate error. -/
theorem c1_aggregate_error_discarded :
    (ListChannels.publishItem pubFailAll (gs "https://notify") [itemA]).1 =
      .error (.aggregate 1 1) ∧
    Effect.publish (ListChannels.encodeFeedItem (gs "https://notify") itemA) ∈
      (ListChannels.processChannel true storeNone pubFailAll (.ok cfg0) (.ok [itemA])).2 ∧
    (ListChannels.processChannel true storeNone pubFailAll (.ok cfg0) (.ok [itemA])).1 =
      .ok () :=
  ⟨rfl, by decide, rfl⟩

/-- C2: the producer-side `FeedItem` struct of the Channel Processor has
no feed-display-name field, so decoding any dispatched message on the
Item Processor side yields `feed = ""`: the Item Processor never
receives a non-empty feed display name, contrary to the claim.  All the
other fields (notify URL and the FeedEntry fields) do round-trip. -/
theorem c2_dispatched_item_feed_empty (url : GoStr) (it : ListChannels.GItem) :
    ProcessItem.decodeFeedItem (ListChannels.encodeFeedItem url it) =
      { notifyURL := url, feed := [], id := it.guid, updated := it.updated,
        link := it.link, title := it.title, content := it.content } := by
  rfl

/-- C9: the batch existence check handles the empty entry sequence
without error: the dedup issues its (empty) batch read and returns the
empty new subset with success. -/
theorem c9_empty_input_ok (store : GoStr → Bool) :
    ListChannels.removeOldItems true store [] = (.ok [], [Effect.storeGet []]) ∧
    ListChannels.removeOldItemsPure store [] = [] :=
  ⟨rfl, rfl⟩

/-- C6: an anchor whose `href` attribute is missing, empty (after
trimming), or exactly `#` is rendered as its inner text content,
unchanged and with no link syntax. -/
theorem c6_anchor_without_href (a : Anchor) (content : GoStr)
    (h : a.href = none ∨
         ∃ hr, a.href = some hr ∧
           (trimSpace (gs hr) = [] ∨ trimSpace (gs hr) = gs "#")) :
    anchorReplacement a content = ({ markdown := content }, false) ∧
    nodeToMarkdown (Node.anchor a content) = content := by
  have hrep : anchorReplacement a content = ({ markdown := content }, false) := by
    rcases h with hnone | ⟨hr, hsome, hcond⟩
    · simp [anchorReplacement, hnone]
    · simp [anchorReplacement, hsome, if_pos hcond]
  exact ⟨hrep, by simp [nodeToMarkdown, hrep]⟩

/-- C6 witness: an anchor with `href=""` and text `click` converts to
`click`. -/
theorem c6_anchor_without_href_witness :
    anchorReplacement anchorEmptyHref (gs "click") = ({ markdown := gs "click" }, false) ∧
    nodeToMarkdown (Node.anchor anchorEmptyHref (gs "click")) = gs "click" :=
  c6_anchor_without_href anchorEmptyHref (gs "click")
    (Or.inr ⟨"", rfl, Or.inl rfl⟩)

/-- C4: for identifier-unique input (the data model requires identifiers
unique within a feed), the dedup dispatches exactly the entries whose
identifier the store reports absent, and performs exactly one batch
existence check over all collected identifiers. -/
theorem c4_dedup_filters_existing (store : GoStr → Bool)
    (items : List ListChannels.GItem)
    (h : (items.map (·.guid)).Nodup) :
    (∀ x, x ∈ ListChannels.removeOldItemsPure store items ↔
        (x ∈ items ∧ store x.guid = false)) ∧
    (ListChannels.removeOldItems true store items).1 =
      .ok (ListChannels.removeOldItemsPure store items) ∧
    (ListChannels.removeOldItems true store items).2 =
      [Effect.storeGet (items.map (·.guid))] := by
  refine ⟨?_, rfl, rfl⟩
  intro x
  have hb : ListChannels.buildMap items [] =
      items.map (fun it => (it.guid, it)) := by
    simpa using buildMap_of_nodup items [] h (by simp)
  simp only [ListChannels.removeOldItemsPure, hb, List.mem_map, List.mem_filter]
  constructor
  · rintro ⟨p, ⟨⟨it, hit, rfl⟩, hkeep⟩, rfl⟩
    refine ⟨hit, ?_⟩
    simpa using hkeep
  · rintro ⟨hx, habs⟩
    exact ⟨(x.guid, x), ⟨⟨x, hx, rfl⟩, by simpa using habs⟩, rfl⟩

/-- C4 witness: entries `[A, B, C]` with `A` present in the store and
`B`, `C` absent dispatch exactly `{B, C}`. -/
theorem c4_dedup_filters_existing_witness :
    (itemC ∈ ListChannels.removeOldItemsPure storeOnlyA [itemA, itemB, itemC] ↔
      (itemC ∈ [itemA, itemB, itemC] ∧ storeOnlyA itemC.guid = false)) ∧
    ListChannels.removeOldItemsPure storeOnlyA [itemA, itemB, itemC] = [itemB, itemC] := by
  have h := c4_dedup_filters_existing storeOnlyA [itemA, itemB, itemC] (by decide)
  exact ⟨h.1 itemC, by decide⟩

/-- C3: the text handed to `http.Post` is exactly the assembled message,
cut to its first 4000 characters when it is longer than 4000 characters
(no error raised) and unchanged otherwise. -/
theorem c3_length_bound (t : GoStr) (parse : GoStr → Except GoStr (List Node))
    (post : GoStr → GoStr → ProcessItem.PostResult) (item : ProcessItem.FeedItem) :
    ((ProcessItem.notify parse post item).2 =
      match ProcessItem.sentText parse item with
      | some tx => [Effect.httpPost item.notifyURL tx]
      | none => []) ∧
    (t.length > 4000 →
      ProcessItem.trimText t = t.take 4000 ∧ (ProcessItem.trimText t).length = 4000) ∧
    (t.length ≤ 4000 → ProcessItem.trimText t = t) := by
  refine ⟨?_, ?_, ?_⟩
  · cases hmt : htmlToMarkdown parse item.content with
    | error e => simp [ProcessItem.notify, ProcessItem.sentText, hmt]
    | ok body =>
      cases hp : post item.notifyURL
          (ProcessItem.trimText (ProcessItem.assembleText item body)) with
      | transportError e =>
        simp [ProcessItem.notify, ProcessItem.sentText, hmt, hp]
      | response code st b =>
        by_cases hc : code = 200 <;>
          simp [ProcessItem.notify, ProcessItem.sentText, hmt, hp, hc]
  · intro hl
    refine ⟨by simp [ProcessItem.trimText, hl], ?_⟩
    simp only [ProcessItem.trimText, if_pos hl, List.length_take]
    omega
  · intro hl
    have hn : ¬ t.length > 4000 := by omega
    simp [ProcessItem.trimText, hn]

/-- C3 witness: a 5000-character text is cut to exactly its first 4000
characters. -/
theorem c3_length_bound_witness :
    ProcessItem.trimText bigText = bigText.take 4000 ∧
    (ProcessItem.trimText bigText).length = 4000 := by
  have h := c3_length_bound bigText parseEmpty post200 item0
  have hbig : bigText.length = 5000 := by
    rw [show bigText = List.replicate 5000 'a' from rfl, List.length_replicate]
  exact h.2.1 (by omega)

/-- C5: a ProcessedRecord write occurs exactly when notification
succeeded, notification succeeds exactly when the conversion succeeded
and the POST of the assembled text returned HTTP 200, a conversion error
aborts before any effect, and a failed notification (conversion error,
transport error or non-200 response) surfaces an error with no record
written. -/
theorem c5_persist_only_after_200 (parse : GoStr → Except GoStr (List Node))
    (post : GoStr → GoStr → ProcessItem.PostResult) (setResult : Except GoStr Unit)
    (item : ProcessItem.FeedItem) :
    ((∃ i r, Effect.storeSet i r ∈ (ProcessItem.processItem parse post setResult item).2) ↔
      (ProcessItem.notify parse post item).1 = .ok ()) ∧
    ((ProcessItem.notify parse post item).1 = .ok () ↔
      ∃ tx st b, ProcessItem.sentText parse item = some tx ∧
        post item.notifyURL tx = .response 200 st b) ∧
    (∀ e, htmlToMarkdown parse item.content = .error e →
      (ProcessItem.processItem parse post setResult item).2 = []) ∧
    ((ProcessItem.notify parse post item).1 ≠ .ok () →
      (∃ err, (ProcessItem.processItem parse post setResult item).1 = .error err) ∧
      ∀ i r, Effect.storeSet i r ∉ (ProcessItem.processItem parse post setResult item).2) := by
  cases hmt : htmlToMarkdown parse item.content with
  | error e =>
    simp [ProcessItem.processItem, ProcessItem.notify, ProcessItem.sentText, hmt]
  | ok body =>
    cases hp : post item.notifyURL
        (ProcessItem.trimText (ProcessItem.assembleText item body)) with
    | transportError e =>
      simp [ProcessItem.processItem, ProcessItem.notify, ProcessItem.sentText, hmt, hp]
    | response code st b =>
      by_cases hc : code = 200
      · subst hc
        cases hs : setResult with
        | error e2 =>
          simp [ProcessItem.processItem, ProcessItem.notify, ProcessItem.sentText,
            ProcessItem.save, hmt, hp, hs]
        | ok u =>
          simp [ProcessItem.processItem, ProcessItem.notify, ProcessItem.sentText,
            ProcessItem.save, hmt, hp, hs]
      · simp [ProcessItem.processItem, ProcessItem.notify, ProcessItem.sentText,
          ProcessItem.save, hmt, hp, hc]

/-- C5 witness: with a webhook answering 404, notification fails, the
invocation surfaces an error and no record write appears in the trace. -/
theorem c5_persist_only_after_200_witness :
    ((ProcessItem.notify parseEmpty post404 item0).1 ≠ .ok ()) ∧
    (∃ err, (ProcessItem.processItem parseEmpty post404 setOk item0).1 = .error err) ∧
    (∀ i r, Effect.storeSet i r ∉ (ProcessItem.processItem parseEmpty post404 setOk item0).2) := by
  have h := c5_persist_only_after_200 parseEmpty post404 setOk item0
  have hne : (ProcessItem.notify parseEmpty post404 item0).1 ≠ .ok () := by decide
  exact ⟨hne, (h.2.2.2 hne).1, (h.2.2.2 hne).2⟩

/-- C7: for an anchor with a usable href whose escaped inner content is
empty, the rule substitutes the `title` attribute value, falling back to
`aria-label`; when that resolved content is still empty the anchor is
suppressed (the rule skips, the walker emits nothing for it and sibling
nodes are still processed), and when it is non-empty the emitted link
token's visible content is the resolved value. -/
theorem c7_empty_content_fallback (a : Anchor) (content : GoStr) (hr : String)
    (h1 : a.href = some hr)
    (h2 : ¬(trimSpace (gs hr) = [] ∨ trimSpace (gs hr) = gs "#"))
    (h3 : trimSpace (escapeMultiLine content) = []) :
    (resolvedFallback a = [] →
      anchorReplacement a content = ({ markdown := [] }, true) ∧
      nodeToMarkdown (Node.anchor a content) = [] ∧
      ∀ pre post, walkNodes (pre ++ Node.anchor a content :: post) =
        walkNodes pre ++ walkNodes post) ∧
    (resolvedFallback a ≠ [] →
      anchorReplacement a content =
        ({ markdown := gs "<" ++ gs hr ++ titleSuffix a ++ gs "|" ++
            resolvedFallback a ++ gs ">" }, false)) := by
  constructor
  · intro hres
    have hrep : anchorReplacement a content = ({ markdown := [] }, true) := by
      simp [anchorReplacement, h1, if_neg h2, h3, hres]
    refine ⟨hrep, by simp [nodeToMarkdown, hrep], ?_⟩
    intro pre post
    rw [walkNodes_append]
    simp [walkNodes, nodeToMarkdown, hrep]
  · intro hres
    simp [anchorReplacement, h1, if_neg h2, h3, hres]

/-- C7 witness: an anchor with a real href, empty inner text and no
`title`/`aria-label` is omitted from the output entirely while its
siblings are still rendered. -/
theorem c7_empty_content_fallback_witness :
    anchorReplacement anchorNoText [] = ({ markdown := [] }, true) ∧
    nodeToMarkdown (Node.anchor anchorNoText []) = [] ∧
    walkNodes [Node.text (gs "x"), Node.anchor anchorNoText [], Node.text (gs "y")] =
      walkNodes [Node.text (gs "x")] ++ walkNodes [Node.text (gs "y")] := by
  have h := (c7_empty_content_fallback anchorNoText [] "https://x" rfl
    (by decide) rfl).1 rfl
  exact ⟨h.1, h.2.1, h.2.2 [Node.text (gs "x")] [Node.text (gs "y")]⟩

/-- C8: a Channel Processor invocation's effect trace consists solely of
batch dedup reads and dispatch publishes — it contains no record write,
so replaying the trace leaves any store state unchanged. -/
theorem c8_channel_never_writes (avail : Bool) (store : GoStr → Bool)
    (pubFail : Nat → Bool) (cfgResult : Except GoStr ListChannels.ChannelConfig)
    (feedResult : Except GoStr (List ListChannels.GItem)) (σ : StoreState) :
    (∀ e ∈ (ListChannels.processChannel avail store pubFail cfgResult feedResult).2,
      (∃ ids, e = Effect.storeGet ids) ∨ (∃ d, e = Effect.publish d)) ∧
    applyEffects σ (ListChannels.processChannel avail store pubFail cfgResult feedResult).2 = σ := by
  have hshape : ∀ e ∈ (ListChannels.processChannel avail store pubFail cfgResult feedResult).2,
      (∃ ids, e = Effect.storeGet ids) ∨ (∃ d, e = Effect.publish d) := by
    cases cfgResult with
    | error e0 => simp [ListChannels.processChannel]
    | ok cfg =>
      cases feedResult with
      | error e0 => simp [ListChannels.processChannel]
      | ok feedItems =>
        cases avail with
        | false =>
          intro e he
          simp [ListChannels.processChannel, ListChannels.removeOldItems] at he
          exact Or.inl ⟨_, he⟩
        | true =>
          intro e he
          simp [ListChannels.processChannel, ListChannels.removeOldItems,
            publishItem_effects] at he
          rcases he with he | ⟨it, _, he⟩
          · exact Or.inl ⟨_, he⟩
          · exact Or.inr ⟨_, he.symm⟩
  refine ⟨hshape, applyEffects_of_no_set _ σ ?_⟩
  intro e he i r
  rcases hshape e he with ⟨ids, rfl⟩ | ⟨d, rfl⟩ <;> simp

/-- C10 counterexample to the claim as stated: a dispatched item with
empty content body whose header alone exceeds 4000 characters is POSTed
truncated, so the posted text is not exactly the header followed by the
blank line. -/
theorem c10_counterexample :
    ProcessItem.sentText parseEmpty itemBig ≠ some (ProcessItem.headerLine itemBig) ∧
    ProcessItem.sentText parseEmpty itemBig =
      some ((ProcessItem.headerLine itemBig).take 4000) ∧
    itemBig.content = [] := by
  have e1 : (gs " <").length = 2 := rfl
  have e2 : (gs "|").length = 1 := rfl
  have e3 : (gs ">\n\n").length = 3 := rfl
  have ebig : bigText.length = 5000 := by
    rw [show bigText = List.replicate 5000 'a' from rfl, List.length_replicate]
  have hlen : (ProcessItem.headerLine itemBig).length = 5006 := by
    simp [ProcessItem.headerLine, ProcessItem.assembleText, itemBig,
      List.length_append, e1, e2, e3, ebig]
  have hsent : ProcessItem.sentText parseEmpty itemBig =
      some (ProcessItem.trimText (ProcessItem.headerLine itemBig)) := by
    simp [ProcessItem.sentText, htmlToMarkdown, parseEmpty, renderNodes,
      walkNodes, trimSpace, ProcessItem.headerLine, itemBig]
  have htrim : ProcessItem.trimText (ProcessItem.headerLine itemBig) =
      (ProcessItem.headerLine itemBig).take 4000 := by
    simp [ProcessItem.trimText, hlen]
  have htake : ((ProcessItem.headerLine itemBig).take 4000).length = 4000 := by
    simp [List.length_take, hlen]
  have hne : (ProcessItem.headerLine itemBig).take 4000 ≠ ProcessItem.headerLine itemBig := by
    intro hcon
    have := congrArg List.length hcon
    rw [htake, hlen] at this
    omega
  have hsent4 : ProcessItem.sentText parseEmpty itemBig =
      some ((ProcessItem.headerLine itemBig).take 4000) := by rw [hsent, htrim]
  refine ⟨?_, hsent4, rfl⟩
  rw [hsent4]
  intro hcon
  exact hne (Option.some.inj hcon)

/-- C10 (amended): an item with empty content body is still delivered —
the POST always happens, its text is the header (feed display name,
space, `<link|title>` token) followed by the blank line, subject only to
the 4000-character cut, and exactly the header-plus-blank-line whenever
that text is within 4000 characters. -/
theorem c10_empty_content_header_only (parse : GoStr → Except GoStr (List Node))
    (post : GoStr → GoStr → ProcessItem.PostResult) (item : ProcessItem.FeedItem)
    (h1 : item.content = []) (h2 : parse [] = .ok []) :
    ProcessItem.sentText parse item =
      some (ProcessItem.trimText (ProcessItem.headerLine item)) ∧
    (ProcessItem.notify parse post item).2 =
      [Effect.httpPost item.notifyURL (ProcessItem.trimText (ProcessItem.headerLine item))] ∧
    ProcessItem.headerLine item =
      item.feed ++ gs " <" ++ item.link ++ gs "|" ++ item.title ++ gs ">\n\n" ∧
    ((ProcessItem.headerLine item).length ≤ 4000 →
      ProcessItem.trimText (ProcessItem.headerLine item) = ProcessItem.headerLine item) := by
  have hmt : htmlToMarkdown parse item.content = .ok [] := by
    simp [htmlToMarkdown, h1, h2, renderNodes, walkNodes, trimSpace]
  refine ⟨?_, ?_, ?_, ?_⟩
  · simp [ProcessItem.sentText, hmt, ProcessItem.headerLine]
  · cases hp : post item.notifyURL
        (ProcessItem.trimText (ProcessItem.assembleText item [])) with
    | transportError e =>
      simp [ProcessItem.notify, hmt, hp, ProcessItem.headerLine]
    | response code st b =>
      by_cases hc : code = 200 <;>
        simp [ProcessItem.notify, hmt, hp, hc, ProcessItem.headerLine]
  · simp [ProcessItem.headerLine, ProcessItem.assembleText]
  · intro hl
    have hn : ¬ (ProcessItem.headerLine item).length > 4000 := by omega
    simp [ProcessItem.trimText, hn]

/-- C10 witness: a small item with empty content is posted as exactly
its header followed by the blank line. -/
theorem c10_empty_content_header_only_witness :
    ProcessItem.sentText parseEmpty item0 =
      some (ProcessItem.trimText (ProcessItem.headerLine item0)) ∧
    ProcessItem.trimText (ProcessItem.headerLine item0) = ProcessItem.headerLine item0 := by
  have h := c10_empty_content_header_only parseEmpty post200 item0 rfl rfl
  exact ⟨h.1, h.2.2.2 (by decide)⟩
